import Mathlib

/-!
# s2n utilities: sorted set, bounded public random, socket cork snapshot

A shallow embedding of `utils/s2n_set.c`, `utils/s2n_socket.c`, the range check
macros of `utils/s2n_result.h` and the `s2n_public_random` entry point declared in
`utils/s2n_random.h`, followed by the properties proved about them.

Conventions of the embedding:

* a C pointer that the code tests against `NULL` is an `Option`;
* a function returning `S2N_RESULT` returns an `s2n_result`, which carries the
  value written through the out-parameter on success and the `s2n_errno` code on
  failure;
* machine integers are `Nat`/`Int`, with the conversions to `uint32_t` written
  out as a reduction modulo `2^32`;
* the `while` loop of the binary search is a structurally recursive function on a
  step budget; `none` is the result of an exhausted budget and is shown never to
  occur for the budget used.
-/

namespace S2N

/-! ## The result convention (`utils/s2n_result.h`) -/

/-- Error codes stored in `s2n_errno`: the three raised by the code under study
(`S2N_ERR_NULL`, `S2N_ERR_SAFETY`, `S2N_ELEMENT_ALREADY_IN_ARRAY`), the two of the
array helpers, and the two a draw from the public generator may fail with. -/
inductive s2n_error where
  | S2N_ERR_NULL
  | S2N_ERR_SAFETY
  | S2N_ELEMENT_ALREADY_IN_ARRAY
  | S2N_ERR_ARRAY_INDEX_OOB
  | S2N_ERR_ALLOC
  | S2N_ERR_NOT_INITIALIZED
  | S2N_ERR_DRBG
  deriving DecidableEq, Repr

/-- Outcome of a fallible function: `S2N_RESULT_OK` together with what was written
through the out-parameter, or `S2N_RESULT_ERROR` together with `s2n_errno`. -/
inductive s2n_result (β : Type) where
  | S2N_RESULT_OK (value : β)
  | S2N_RESULT_ERROR (errno : s2n_error)
  deriving DecidableEq, Repr

open s2n_error s2n_result

/-- Macro `gt_check_result(n, min)`: raises `S2N_ERR_SAFETY` when `n <= min`. -/
def gt_check_result (n min : Int) : s2n_result Unit :=
  if n ≤ min then S2N_RESULT_ERROR S2N_ERR_SAFETY else S2N_RESULT_OK ()

/-- Macro `eq_check_result(a, b)`: raises `S2N_ERR_SAFETY` when `a != b`. -/
def eq_check_result (a b : Nat) : s2n_result Unit :=
  if a ≠ b then S2N_RESULT_ERROR S2N_ERR_SAFETY else S2N_RESULT_OK ()

/-! ## The sorted set (`utils/s2n_set.c`) -/

/-- Conversion of a 64 bit signed value to `uint32_t`. -/
def to_uint32 (x : Int) : Nat := (x % 4294967296).toNat

/-- Array of `num_of_elements` elements; the elements are kept as values. -/
structure s2n_array (α : Type) where
  elems : List α

/-- Field `num_of_elements`. -/
def s2n_array.num_of_elements {α : Type} (array : s2n_array α) : Nat :=
  array.elems.length

/-- The set: a backing array and the comparator given to `s2n_set_new`. -/
structure s2n_set (α : Type) where
  data : s2n_array α
  comparator : α → α → Int

/-- Modelled from the spec: `s2n_array_get` of `utils/s2n_array.c`, which is not
among the sources. It yields the element stored at `index`, and `NULL` (with
`S2N_ERR_ARRAY_INDEX_OOB`) when `index` is not below `num_of_elements`. -/
def s2n_array_get {α : Type} (array : s2n_array α) (index : Nat) : Option α :=
  if array.num_of_elements ≤ index then none else array.elems[index]?

/-- Modelled from the spec: `s2n_array_insert_and_copy` of `utils/s2n_array.c`,
which is not among the sources. It fails, leaving the array as it was, when
`index` is beyond `num_of_elements` or when the storage for one more element
cannot be obtained (`mem_ok` false, or the count would leave `uint32_t`);
otherwise the elements from `index` on move up by one and a copy of `element`
is stored at `index`. -/
def s2n_array_insert_and_copy {α : Type} (mem_ok : Bool) (array : s2n_array α)
    (element : α) (index : Nat) : s2n_result Unit × s2n_array α :=
  if array.num_of_elements < index then
    (S2N_RESULT_ERROR S2N_ERR_ARRAY_INDEX_OOB, array)
  else if mem_ok = false ∨ 4294967296 ≤ array.num_of_elements + 1 then
    (S2N_RESULT_ERROR S2N_ERR_ALLOC, array)
  else
    (S2N_RESULT_OK (), { elems := array.elems.insertIdx index element })

/-- The `while (low <= top)` loop of `s2n_set_binary_search`, one iteration per
unit of budget. `low`, `top` and `mid` are the `int64_t` locals. -/
def s2n_set_binary_search_loop {α : Type} (array : s2n_array α)
    (comparator : α → α → Int) (element : α) :
    Nat → Int → Int → Option (s2n_result Nat)
  | 0, low, top =>
    if low ≤ top then none else some (S2N_RESULT_OK (to_uint32 low))
  | budget + 1, low, top =>
    if low ≤ top then
      let mid := low + (top - low).tdiv 2
      match s2n_array_get array (to_uint32 mid) with
      | none => some (S2N_RESULT_ERROR S2N_ERR_ARRAY_INDEX_OOB)
      | some array_element =>
        let m := comparator array_element element
        if m = 0 then some (S2N_RESULT_ERROR S2N_ELEMENT_ALREADY_IN_ARRAY)
        else if m > 0 then
          s2n_set_binary_search_loop array comparator element budget low (mid - 1)
        else
          s2n_set_binary_search_loop array comparator element budget (mid + 1) top
    else some (S2N_RESULT_OK (to_uint32 low))

/-- Function `s2n_set_binary_search`. `out` is the `uint32_t*` out-parameter (its
current content when non-null); the value of a successful result is what is
stored in `*out`. -/
def s2n_set_binary_search {α : Type} (set : Option (s2n_set α)) (element : Option α)
    (out : Option Nat) : Option (s2n_result Nat) :=
  match set with
  | none => some (S2N_RESULT_ERROR S2N_ERR_NULL)
  | some set =>
    match element with
    | none => some (S2N_RESULT_ERROR S2N_ERR_NULL)
    | some element =>
      match out with
      | none => some (S2N_RESULT_ERROR S2N_ERR_NULL)
      | some _ =>
        let array := set.data
        let comparator := set.comparator
        if array.num_of_elements = 0 then some (S2N_RESULT_OK 0)
        else
          let low : Int := 0
          let top : Int := (to_uint32 ((array.num_of_elements : Int) - 1) : Int)
          s2n_set_binary_search_loop array comparator element
            array.num_of_elements low top

/-- Function `s2n_set_add`: the result together with the set as the call leaves
it (`none` when the `set` pointer is null). The last branch is never taken: the
search fails on a null `set` or `element`. -/
def s2n_set_add {α : Type} (mem_ok : Bool) (set : Option (s2n_set α))
    (element : Option α) : Option (s2n_result Unit × Option (s2n_set α)) :=
  let index : Nat := 0
  match s2n_set_binary_search set element (some index) with
  | none => none
  | some (S2N_RESULT_ERROR e) => some (S2N_RESULT_ERROR e, set)
  | some (S2N_RESULT_OK index) =>
    match set, element with
    | some s, some element =>
      match s2n_array_insert_and_copy mem_ok s.data element index with
      | (S2N_RESULT_ERROR e, data) =>
        some (S2N_RESULT_ERROR e, some { s with data := data })
      | (S2N_RESULT_OK _, data) =>
        some (S2N_RESULT_OK (), some { s with data := data })
    | _, _ => some (S2N_RESULT_ERROR S2N_ERR_NULL, set)

/-- The set right after `s2n_set_new`: an empty backing array. -/
def s2n_set_new {α : Type} (comparator : α → α → Int) : s2n_set α :=
  { data := { elems := [] }, comparator := comparator }

/-- A three-way comparator on integers, of the kind handed to `s2n_set_new`. -/
def int_comparator (a b : Int) : Int :=
  if a < b then -1 else if b < a then 1 else 0


/-! ## Bounded public random (`utils/s2n_random.h`) -/

/-- Largest value of a raw 64 bit word. -/
def UINT64_MAX : Nat := 18446744073709551615

/-- Modelled from the spec: the region of raw words that would skew a naive
reduction modulo `max` (section 4.6), the implementation file being absent from
the sources. The region starts at the largest multiple of `max` not exceeding the
word's range, so that the words below it are a whole number of runs of
`0 .. max - 1`. -/
def in_skew_region (max : Nat) (r : Nat) : Bool :=
  decide (UINT64_MAX - UINT64_MAX % max ≤ r)

/-- Modelled from the spec: the redraw loop of the range sampler (section 4.6).
`draws` are the outcomes of the successive requests for a raw word from the
public generator, each one a word or the error the generator failed with; `none`
stands for a run that is still redrawing when the listed outcomes are used up.
The result comes with the outcomes not yet consumed. -/
def s2n_public_random_loop (max : Nat) :
    List (s2n_result Nat) → Option (s2n_result Int × List (s2n_result Nat))
  | [] => none
  | S2N_RESULT_ERROR e :: rest => some (S2N_RESULT_ERROR e, rest)
  | S2N_RESULT_OK r :: rest =>
    if in_skew_region max r then s2n_public_random_loop max rest
    else some (S2N_RESULT_OK ((r % max : Nat) : Int), rest)

/-- Modelled from the spec: `s2n_public_random(max, output)`, declared in
`utils/s2n_random.h` and implemented in a file absent from the sources. A
non-positive `max` and a null `output` are input errors (sections 4.6 and 7)
raised before any word is drawn, the former through `gt_check_result(max, 0)`;
otherwise the value is drawn by the redraw loop and stored in `*output`. -/
def s2n_public_random (draws : List (s2n_result Nat)) (max : Int)
    (output : Option Int) : Option (s2n_result Int × List (s2n_result Nat)) :=
  match gt_check_result max 0 with
  | S2N_RESULT_ERROR e => some (S2N_RESULT_ERROR e, draws)
  | S2N_RESULT_OK _ =>
    match output with
    | none => some (S2N_RESULT_ERROR S2N_ERR_SAFETY, draws)
    | some _ => s2n_public_random_loop max.toNat draws

/-! ## Socket cork snapshot and restore (`utils/s2n_socket.c`) -/

/-- Names of the TCP level socket options the cork macros may select. -/
inductive socket_option where
  | TCP_CORK
  | TCP_NOPUSH
  | TCP_NODELAY
  deriving DecidableEq, Repr

/-- The macros `S2N_CORK`, `S2N_CORK_ON` and `S2N_CORK_OFF`. -/
structure cork_macros where
  S2N_CORK : socket_option
  S2N_CORK_ON : Int
  S2N_CORK_OFF : Int
  deriving DecidableEq, Repr

/-- The preprocessor chain at the head of `s2n_socket.c`: the arguments say which
of `TCP_CORK`, `TCP_NOPUSH`, `TCP_NODELAY` the system headers define (non-zero);
`none` means that `S2N_CORK` stays undefined. -/
def select_cork_macros (tcp_cork tcp_nopush tcp_nodelay : Bool) : Option cork_macros :=
  if tcp_cork then some ⟨socket_option.TCP_CORK, 1, 0⟩
  else if tcp_nopush then some ⟨socket_option.TCP_NOPUSH, 1, 0⟩
  else if tcp_nodelay then some ⟨socket_option.TCP_NODELAY, 0, 1⟩
  else none

/-- Value of `sizeof(int)`. -/
def sizeof_int : Nat := 4

/-- The operating system's side of the socket options: for a file descriptor and
an option name, whether the option is switched on; `none` when the descriptor is
not a TCP socket carrying that option (a pipe, a closed descriptor, a socket of
another family). -/
abbrev kernel_sockets := Int → socket_option → Option Bool

/-- System call `getsockopt` at level `IPPROTO_TCP`: on a descriptor that carries
the option it stores 1 or 0 in `*optval`, stores `sizeof(int)` in `*optlen` and
returns 0; otherwise it returns -1 and leaves both untouched. The triple is the
return value and the contents of `*optval` and `*optlen` after the call. -/
def getsockopt (kernel : kernel_sockets) (fd : Int) (optname : socket_option)
    (optval : Int) (optlen : Nat) : Int × Int × Nat :=
  match kernel fd optname with
  | some on_ => (0, (if on_ then 1 else 0), sizeof_int)
  | none => (-1, optval, optlen)

/-- System call `setsockopt` at level `IPPROTO_TCP`: on a descriptor that carries
the option it switches the option on for a non-zero `optval` and off for zero,
and returns 0; otherwise it returns -1 and changes nothing. -/
def setsockopt (kernel : kernel_sockets) (fd : Int) (optname : socket_option)
    (optval : Int) : Int × kernel_sockets :=
  match kernel fd optname with
  | some _ =>
    (0, fun fd' optname' =>
      if fd' = fd ∧ optname' = optname then some (decide (optval ≠ 0))
      else kernel fd' optname')
  | none => (-1, kernel)

/-- The `struct s2n_socket_write_io_context` pointed to by `send_io_context`. -/
structure s2n_socket_write_io_context where
  fd : Int
  original_cork_is_set : Bool
  original_cork_val : Int
  deriving DecidableEq, Repr

/-- The fields of `struct s2n_connection` read by the socket functions:
`managed_io`, whether the `send` callback is set, and `send_io_context`
(`none` for a null pointer). -/
structure s2n_connection where
  managed_io : Bool
  send : Option Unit
  send_io_context : Option s2n_socket_write_io_context
  deriving DecidableEq, Repr

/-- What the socket functions act on: the kernel's socket options and the
connection. -/
structure socket_world where
  kernel : kernel_sockets
  conn : s2n_connection

/-- Function `s2n_socket_write_snapshot`; `cork` is `none` when `S2N_CORK` is
undefined. -/
def s2n_socket_write_snapshot (cork : Option cork_macros) (w : socket_world) :
    s2n_result Unit × socket_world :=
  match cork with
  | none => (S2N_RESULT_OK (), w)
  | some m =>
    let corklen := sizeof_int
    match w.conn.send_io_context with
    | none => (S2N_RESULT_ERROR S2N_ERR_NULL, w)
    | some w_io_ctx =>
      let got := getsockopt w.kernel w_io_ctx.fd m.S2N_CORK w_io_ctx.original_cork_val
        corklen
      let w_io_ctx := { w_io_ctx with original_cork_val := got.2.1 }
      let corklen := got.2.2
      match eq_check_result corklen sizeof_int with
      | S2N_RESULT_ERROR e =>
        (S2N_RESULT_ERROR e, { w with conn := { w.conn with send_io_context := some w_io_ctx } })
      | S2N_RESULT_OK _ =>
        let w_io_ctx := { w_io_ctx with original_cork_is_set := true }
        (S2N_RESULT_OK (), { w with conn := { w.conn with send_io_context := some w_io_ctx } })

/-- Function `s2n_socket_write_restore`. -/
def s2n_socket_write_restore (cork : Option cork_macros) (w : socket_world) :
    s2n_result Unit × socket_world :=
  match cork with
  | none => (S2N_RESULT_OK (), w)
  | some m =>
    match w.conn.send_io_context with
    | none => (S2N_RESULT_ERROR S2N_ERR_NULL, w)
    | some w_io_ctx =>
      if w_io_ctx.original_cork_is_set = false then (S2N_RESULT_OK (), w)
      else
        let kernel := (setsockopt w.kernel w_io_ctx.fd m.S2N_CORK
          w_io_ctx.original_cork_val).2
        let w_io_ctx := { w_io_ctx with original_cork_is_set := false }
        (S2N_RESULT_OK (),
          { kernel := kernel, conn := { w.conn with send_io_context := some w_io_ctx } })

/-- Function `s2n_socket_was_corked`; the value of a successful result is what is
stored in `*was_corked`. -/
def s2n_socket_was_corked (conn : s2n_connection) : s2n_result Bool :=
  if conn.managed_io = false ∨ conn.send = none then S2N_RESULT_OK false
  else
    match conn.send_io_context with
    | none => S2N_RESULT_ERROR S2N_ERR_NULL
    | some io_ctx => S2N_RESULT_OK (decide (io_ctx.original_cork_val ≠ 0))

/-- Function `s2n_socket_write_cork`. -/
def s2n_socket_write_cork (cork : Option cork_macros) (w : socket_world) :
    s2n_result Unit × socket_world :=
  match cork with
  | none => (S2N_RESULT_OK (), w)
  | some m =>
    let optval := m.S2N_CORK_ON
    match w.conn.send_io_context with
    | none => (S2N_RESULT_ERROR S2N_ERR_NULL, w)
    | some w_io_ctx =>
      (S2N_RESULT_OK (),
        { w with kernel := (setsockopt w.kernel w_io_ctx.fd m.S2N_CORK optval).2 })

/-- Function `s2n_socket_write_uncork`. -/
def s2n_socket_write_uncork (cork : Option cork_macros) (w : socket_world) :
    s2n_result Unit × socket_world :=
  match cork with
  | none => (S2N_RESULT_OK (), w)
  | some m =>
    let optval := m.S2N_CORK_OFF
    match w.conn.send_io_context with
    | none => (S2N_RESULT_ERROR S2N_ERR_NULL, w)
    | some w_io_ctx =>
      (S2N_RESULT_OK (),
        { w with kernel := (setsockopt w.kernel w_io_ctx.fd m.S2N_CORK optval).2 })

/-- One call of the cork interface between snapshot and restore. -/
inductive cork_call where
  | cork
  | uncork
  deriving DecidableEq, Repr

/-- The world after a sequence of `s2n_socket_write_cork` and
`s2n_socket_write_uncork` calls, made one after the other. -/
def run_cork_calls (cork : Option cork_macros) (w : socket_world) :
    List cork_call → socket_world
  | [] => w
  | cork_call.cork :: calls => run_cork_calls cork (s2n_socket_write_cork cork w).2 calls
  | cork_call.uncork :: calls =>
    run_cork_calls cork (s2n_socket_write_uncork cork w).2 calls

/-- The world after snapshot, the given cork and uncork calls, and restore, with
the result of the restore call. -/
def snapshot_calls_restore (cork : Option cork_macros) (w : socket_world)
    (calls : List cork_call) : s2n_result Unit × socket_world :=
  s2n_socket_write_restore cork
    (run_cork_calls cork (s2n_socket_write_snapshot cork w).2 calls)

/-- The outcome promised for restore: the option named `S2N_CORK` of the send
descriptor has in `after` the value it had in `before`, `original_cork_val`
holds that value as `getsockopt` reports it, and `original_cork_is_set` is
cleared. -/
def cork_put_back (m : cork_macros) (fd : Int) (before after : socket_world) : Prop :=
  ∃ on_ ctx, before.kernel fd m.S2N_CORK = some on_ ∧
    after.kernel fd m.S2N_CORK = some on_ ∧
    after.conn.send_io_context = some ctx ∧
    ctx.original_cork_val = (if on_ then 1 else 0) ∧
    ctx.original_cork_is_set = false

/-- The world with the send I/O context replaced by `ctx`. -/
def with_send_io_context (w : socket_world) (ctx : s2n_socket_write_io_context) :
    socket_world :=
  { w with conn := { w.conn with send_io_context := some ctx } }

/-- A world whose send descriptor 3 is a pipe: no descriptor carries TCP options. -/
def pipe_world : socket_world :=
  { kernel := fun _ _ => none,
    conn := { managed_io := true, send := some (),
              send_io_context := some { fd := 3, original_cork_is_set := false,
                                        original_cork_val := 0 } } }

/-- A world whose send descriptor 3 is a TCP socket with every option off. -/
def tcp_world : socket_world :=
  { kernel := fun fd _ => if fd = 3 then some false else none,
    conn := { managed_io := true, send := some (),
              send_io_context := some { fd := 3, original_cork_is_set := false,
                                        original_cork_val := 0 } } }

/-! ## Predicates used to state the properties of the set -/

/-- The comparator agrees with a strict total order on the elements: a negative
result means "smaller", a positive result means "greater". -/
def comparator_consistent {α : Type} (comparator : α → α → Int) : Prop :=
  ∃ lt : α → α → Prop, IsStrictTotalOrder α lt ∧
    ∀ a b, (comparator a b < 0 ↔ lt a b) ∧ (0 < comparator a b ↔ lt b a)

/-- The list is strictly ascending under the comparator: every element compares
less than every later one. -/
def strictly_ascending {α : Type} (comparator : α → α → Int) (l : List α) : Prop :=
  l.Pairwise (fun a b => comparator a b < 0)

instance {α : Type} (comparator : α → α → Int) (l : List α) :
    Decidable (strictly_ascending comparator l) := by
  unfold strictly_ascending; infer_instance

/-- The sets reached from `set` by a sequence of `s2n_set_add` calls; every call
comes with its element pointer and with whether storage can be obtained, and
the next call works on the set as the previous one left it. -/
def s2n_set_add_all {α : Type} (set : s2n_set α) :
    List (Bool × Option α) → Option (s2n_set α)
  | [] => some set
  | (mem_ok, element) :: calls =>
    match s2n_set_add mem_ok (some set) element with
    | some (_, some set') => s2n_set_add_all set' calls
    | _ => none

/-! ## Properties of the sorted set -/

section set_lemmas

variable {α : Type} {cmp : α → α → Int}

theorem comparator_consistent.lt_trans (hc : comparator_consistent cmp) {a b c : α}
    (hab : cmp a b < 0) (hbc : cmp b c < 0) : cmp a c < 0 := by
  obtain ⟨lt, hlt, h⟩ := hc
  exact (h a c).1.mpr (hlt.toIsStrictOrder.toIsTrans.trans a b c
    ((h a b).1.mp hab) ((h b c).1.mp hbc))

theorem comparator_consistent.pos_iff (hc : comparator_consistent cmp) (a b : α) :
    0 < cmp a b ↔ cmp b a < 0 := by
  obtain ⟨lt, _, h⟩ := hc
  rw [(h a b).2, (h b a).1]

theorem strictly_ascending.getElem_lt {l : List α} (hs : strictly_ascending cmp l)
    {i j : Nat} {a b : α} (hij : i < j) (ha : l[i]? = some a) (hb : l[j]? = some b) :
    cmp a b < 0 := by
  obtain ⟨hi, rfl⟩ := List.getElem?_eq_some.mp ha
  obtain ⟨hj, rfl⟩ := List.getElem?_eq_some.mp hb
  exact List.pairwise_iff_getElem.mp hs i j hi hj hij

theorem to_uint32_of_lt {x : Int} (h0 : 0 ≤ x) (h1 : x < 4294967296) :
    to_uint32 x = x.toNat := by
  unfold to_uint32; omega

theorem s2n_array_get_of_lt (array : s2n_array α) {k : Nat}
    (hk : k < array.num_of_elements) :
    ∃ a, s2n_array_get array k = some a ∧ array.elems[k]? = some a := by
  have hk' : k < array.elems.length := hk
  refine ⟨array.elems[k], ?_, List.getElem?_eq_getElem hk'⟩
  unfold s2n_array_get
  rw [if_neg (by omega)]
  exact List.getElem?_eq_getElem hk'

/-- What the search loop computes on a strictly ascending array: either it meets
an element of the window that compares equal and reports it, or it returns the
boundary between the smaller and the greater elements of the window. -/
theorem s2n_set_binary_search_loop_spec (hc : comparator_consistent cmp)
    (array : s2n_array α) (hs : strictly_ascending cmp array.elems)
    (hn : array.num_of_elements < 4294967296) (e : α) :
    ∀ (budget : Nat) (low top : Int), 0 ≤ low → low ≤ top + 1 →
      top < array.num_of_elements → top - low + 1 ≤ budget →
      (∃ k : Nat, low ≤ k ∧ (k : Int) ≤ top ∧ ∃ a, array.elems[k]? = some a ∧
          cmp a e = 0 ∧
          s2n_set_binary_search_loop array cmp e budget low top
            = some (S2N_RESULT_ERROR S2N_ELEMENT_ALREADY_IN_ARRAY)) ∨
      (∃ i : Nat, low ≤ i ∧ (i : Int) ≤ top + 1 ∧
          s2n_set_binary_search_loop array cmp e budget low top
            = some (S2N_RESULT_OK i) ∧
          (∀ k : Nat, low ≤ k → k < i → ∀ a, array.elems[k]? = some a → cmp a e < 0) ∧
          (∀ k : Nat, i ≤ k → (k : Int) ≤ top → ∀ a, array.elems[k]? = some a →
            0 < cmp a e)) := by
  intro budget
  induction budget with
  | zero =>
    intro low top h0 h1 h2 h3
    right
    have hlt : ¬ low ≤ top := by omega
    refine ⟨low.toNat, by omega, by omega, ?_, ?_, ?_⟩
    · rw [s2n_set_binary_search_loop, if_neg hlt, to_uint32_of_lt h0 (by omega)]
    · intro k hk1 hk2; omega
    · intro k hk1 hk2; omega
  | succ budget ih =>
    intro low top h0 h1 h2 h3
    by_cases hlt : low ≤ top
    · have hdiv : (top - low).tdiv 2 = (top - low) / 2 :=
        Int.tdiv_eq_ediv (by omega) (by decide)
      obtain ⟨m, hm⟩ : ∃ m : Nat, (m : Int) = low + (top - low).tdiv 2 :=
        ⟨(low + (top - low).tdiv 2).toNat, by rw [hdiv]; omega⟩
      have hm1 : low ≤ m := by rw [hm, hdiv]; omega
      have hm2 : (m : Int) ≤ top := by rw [hm, hdiv]; omega
      have hmn : m < array.num_of_elements := by omega
      obtain ⟨am, hget, hidx⟩ := s2n_array_get_of_lt array hmn
      have hu : to_uint32 (low + (top - low).tdiv 2) = m := by
        rw [← hm, to_uint32_of_lt (by omega) (by omega)]; simp
      have hunf : s2n_set_binary_search_loop array cmp e (budget + 1) low top =
          if cmp am e = 0 then some (S2N_RESULT_ERROR S2N_ELEMENT_ALREADY_IN_ARRAY)
          else if cmp am e > 0 then
            s2n_set_binary_search_loop array cmp e budget low ((m : Int) - 1)
          else s2n_set_binary_search_loop array cmp e budget ((m : Int) + 1) top := by
        rw [s2n_set_binary_search_loop, if_pos hlt]
        simp only [hu, hget, hm]
      rcases Int.lt_trichotomy (cmp am e) 0 with hneg | hzero | hpos
      · -- the middle element is smaller: continue above it
        have hrec : s2n_set_binary_search_loop array cmp e (budget + 1) low top =
            s2n_set_binary_search_loop array cmp e budget ((m : Int) + 1) top := by
          rw [hunf, if_neg (by omega), if_neg (by omega)]
        have hbelow : ∀ k : Nat, k ≤ m → ∀ a, array.elems[k]? = some a → cmp a e < 0 := by
          intro k hk a ha
          rcases Nat.lt_or_eq_of_le hk with hk' | hk'
          · exact hc.lt_trans (hs.getElem_lt hk' ha hidx) hneg
          · subst hk'; rw [hidx] at ha; cases ha; exact hneg
        rcases ih ((m : Int) + 1) top (by omega) (by omega) h2 (by omega) with
          ⟨k, hk1, hk2, a, ha, hz, hr⟩ | ⟨i, hi1, hi2, hr, hlo, hhi⟩
        · exact Or.inl ⟨k, by omega, hk2, a, ha, hz, by rw [hrec, hr]⟩
        · refine Or.inr ⟨i, by omega, hi2, by rw [hrec, hr], ?_, hhi⟩
          intro k hk1 hk2 a ha
          by_cases hkm : k ≤ m
          · exact hbelow k hkm a ha
          · exact hlo k (by omega) hk2 a ha
      · exact Or.inl ⟨m, hm1, hm2, am, hidx, hzero, by rw [hunf, if_pos hzero]⟩
      · -- the middle element is greater: continue below it
        have hrec : s2n_set_binary_search_loop array cmp e (budget + 1) low top =
            s2n_set_binary_search_loop array cmp e budget low ((m : Int) - 1) := by
          rw [hunf, if_neg (by omega), if_pos hpos]
        have habove : ∀ k : Nat, m ≤ k → ∀ a, array.elems[k]? = some a → 0 < cmp a e := by
          intro k hk a ha
          rcases Nat.lt_or_eq_of_le hk with hk' | hk'
          · have h1 : cmp am a < 0 := hs.getElem_lt hk' hidx ha
            have h2 : cmp e am < 0 := (hc.pos_iff am e).mp hpos
            exact (hc.pos_iff a e).mpr (hc.lt_trans h2 h1)
          · subst hk'; rw [hidx] at ha; cases ha; exact hpos
        rcases ih low ((m : Int) - 1) h0 (by omega) (by omega) (by omega) with
          ⟨k, hk1, hk2, a, ha, hz, hr⟩ | ⟨i, hi1, hi2, hr, hlo, hhi⟩
        · exact Or.inl ⟨k, hk1, by omega, a, ha, hz, by rw [hrec, hr]⟩
        · refine Or.inr ⟨i, hi1, by omega, by rw [hrec, hr], hlo, ?_⟩
          intro k hk1 hk2 a ha
          by_cases hkm : m ≤ k
          · exact habove k hkm a ha
          · exact hhi k hk1 (by omega) a ha
    · right
      refine ⟨low.toNat, by omega, by omega, ?_, ?_, ?_⟩
      · rw [s2n_set_binary_search_loop, if_neg hlt, to_uint32_of_lt h0 (by omega)]
      · intro k hk1 hk2; omega
      · intro k hk1 hk2; omega

/-- On non-null arguments and a strictly ascending array, the search either
reports an element that compares equal or returns the insertion index. -/
theorem s2n_set_binary_search_spec (set : s2n_set α) (element : α) (out : Nat)
    (hc : comparator_consistent set.comparator)
    (hs : strictly_ascending set.comparator set.data.elems)
    (hn : set.data.num_of_elements < 4294967296) :
    ((∃ a ∈ set.data.elems, set.comparator a element = 0) ∧
        s2n_set_binary_search (some set) (some element) (some out)
          = some (S2N_RESULT_ERROR S2N_ELEMENT_ALREADY_IN_ARRAY)) ∨
    (∃ i : Nat, i ≤ set.data.num_of_elements ∧
        s2n_set_binary_search (some set) (some element) (some out)
          = some (S2N_RESULT_OK i) ∧
        (∀ k a, k < i → set.data.elems[k]? = some a → set.comparator a element < 0) ∧
        (∀ k a, i ≤ k → set.data.elems[k]? = some a → 0 < set.comparator a element)) := by
  by_cases h0 : set.data.num_of_elements = 0
  · right
    refine ⟨0, by omega, ?_, ?_, ?_⟩
    · simp [s2n_set_binary_search, h0]
    · intro k a hk; omega
    · intro k a _ ha
      have hlen : set.data.elems.length = 0 := h0
      rw [List.getElem?_eq_none (by omega)] at ha
      cases ha
  · have htop : ((to_uint32 ((set.data.num_of_elements : Int) - 1) : Nat) : Int)
        = (set.data.num_of_elements : Int) - 1 := by
      rw [to_uint32_of_lt (by omega) (by omega)]; omega
    have hunf : s2n_set_binary_search (some set) (some element) (some out) =
        s2n_set_binary_search_loop set.data set.comparator element
          set.data.num_of_elements 0 ((set.data.num_of_elements : Int) - 1) := by
      simp only [s2n_set_binary_search, if_neg h0, htop]
    rcases s2n_set_binary_search_loop_spec hc set.data hs hn element
        set.data.num_of_elements 0 ((set.data.num_of_elements : Int) - 1)
        (by omega) (by omega) (by omega) (by omega) with
      ⟨k, _, _, a, ha, hz, hr⟩ | ⟨i, _, hi2, hr, hlo, hhi⟩
    · exact Or.inl ⟨⟨a, List.mem_iff_getElem?.mpr ⟨k, ha⟩, hz⟩, by rw [hunf, hr]⟩
    · refine Or.inr ⟨i, by omega, by rw [hunf, hr], ?_, ?_⟩
      · intro k a hk ha
        exact hlo k (by omega) hk a ha
      · intro k a hk ha
        have hklen : k < set.data.elems.length := (List.getElem?_eq_some.mp ha).1
        have hklen' : k < set.data.num_of_elements := hklen
        exact hhi k hk (by omega) a ha

/-- The search never exhausts the step budget it is started with. -/
theorem s2n_set_binary_search_loop_budget (array : s2n_array α) (e : α) :
    ∀ (budget : Nat) (low top : Int), top - low + 1 ≤ budget →
      s2n_set_binary_search_loop array cmp e budget low top ≠ none := by
  intro budget
  induction budget with
  | zero =>
    intro low top hb
    rw [s2n_set_binary_search_loop, if_neg (by omega)]
    simp
  | succ budget ih =>
    intro low top hb
    rw [s2n_set_binary_search_loop]
    by_cases hlt : low ≤ top
    · rw [if_pos hlt]
      have hdiv : (top - low).tdiv 2 = (top - low) / 2 :=
        Int.tdiv_eq_ediv (by omega) (by decide)
      simp only
      split
      · simp
      · split
        · simp
        · split
          · exact ih _ _ (by rw [hdiv]; omega)
          · exact ih _ _ (by rw [hdiv]; omega)
    · rw [if_neg hlt]; simp

/-- The search always returns: the budget it starts the loop with is enough
whatever the comparator answers. -/
theorem s2n_set_binary_search_returns (set : Option (s2n_set α)) (element : Option α)
    (out : Option Nat) (hn : ∀ s, set = some s → s.data.num_of_elements < 4294967296) :
    s2n_set_binary_search set element out ≠ none := by
  cases set with
  | none => simp [s2n_set_binary_search]
  | some s =>
    cases element with
    | none => simp [s2n_set_binary_search]
    | some e =>
      cases out with
      | none => simp [s2n_set_binary_search]
      | some o =>
        have hs := hn s rfl
        by_cases h0 : s.data.num_of_elements = 0
        · simp [s2n_set_binary_search, h0]
        · simp only [s2n_set_binary_search, if_neg h0]
          apply s2n_set_binary_search_loop_budget
          rw [to_uint32_of_lt (by omega) (by omega)]
          omega

theorem insertIdx_eq_take_append_drop (l : List α) (x : α) :
    ∀ i, i ≤ l.length → l.insertIdx i x = l.take i ++ x :: l.drop i := by
  induction l with
  | nil => intro i h; simp at h; subst h; simp
  | cons a l ih =>
    intro i h
    cases i with
    | zero => simp
    | succ i => simp at h; simp [ih i h]

/-- Inserting at the index found by the search keeps the list strictly ascending. -/
theorem strictly_ascending_insertIdx (hc : comparator_consistent cmp) (l : List α)
    (e : α) (i : Nat) (hi : i ≤ l.length) (hs : strictly_ascending cmp l)
    (hlo : ∀ k a, k < i → l[k]? = some a → cmp a e < 0)
    (hhi : ∀ k a, i ≤ k → l[k]? = some a → 0 < cmp a e) :
    strictly_ascending cmp (l.insertIdx i e) := by
  rw [insertIdx_eq_take_append_drop l e i hi]
  have hsplit : strictly_ascending cmp (l.take i ++ l.drop i) := by
    rw [List.take_append_drop]; exact hs
  unfold strictly_ascending at hsplit ⊢
  rw [List.pairwise_append] at hsplit ⊢
  obtain ⟨ht, hd, hcross⟩ := hsplit
  have htake : ∀ a ∈ l.take i, cmp a e < 0 := by
    intro a ha
    obtain ⟨k, hk⟩ := List.mem_iff_getElem?.mp ha
    rw [List.getElem?_take] at hk
    by_cases hki : k < i
    · rw [if_pos hki] at hk; exact hlo k a hki hk
    · rw [if_neg hki] at hk; cases hk
  have hdrop : ∀ b ∈ l.drop i, cmp e b < 0 := by
    intro b hb
    obtain ⟨k, hk⟩ := List.mem_iff_getElem?.mp hb
    rw [List.getElem?_drop] at hk
    exact (hc.pos_iff b e).mp (hhi (i + k) b (by omega) hk)
  refine ⟨ht, List.pairwise_cons.mpr ⟨hdrop, hd⟩, ?_⟩
  intro a ha b hb
  rcases List.mem_cons.mp hb with rfl | hb'
  · exact htake a ha
  · exact hcross a ha b hb'

/-- The integer comparator is consistent with the usual order of the integers. -/
theorem int_comparator_consistent : comparator_consistent int_comparator := by
  refine ⟨fun a b => a < b, inferInstance, ?_⟩
  intro a b
  simp only [int_comparator]
  split_ifs <;> constructor <;> constructor <;> intro h <;> omega

/-- What one `s2n_set_add` call does to a strictly ascending set. -/
theorem s2n_set_add_spec (mem_ok : Bool) (set : s2n_set α) (element : α)
    (hc : comparator_consistent set.comparator)
    (hs : strictly_ascending set.comparator set.data.elems)
    (hn : set.data.num_of_elements < 4294967296) :
    ((∃ a ∈ set.data.elems, set.comparator a element = 0) ∧
        s2n_set_add mem_ok (some set) (some element)
          = some (S2N_RESULT_ERROR S2N_ELEMENT_ALREADY_IN_ARRAY, some set)) ∨
    ((∀ a ∈ set.data.elems, set.comparator a element ≠ 0) ∧
      ((mem_ok = true ∧ set.data.num_of_elements + 1 < 4294967296 ∧
          ∃ i, i ≤ set.data.num_of_elements ∧
          s2n_set_add mem_ok (some set) (some element)
            = some (S2N_RESULT_OK (),
                some ⟨⟨set.data.elems.insertIdx i element⟩, set.comparator⟩) ∧
          strictly_ascending set.comparator (set.data.elems.insertIdx i element)) ∨
       ((mem_ok = false ∨ 4294967296 ≤ set.data.num_of_elements + 1) ∧
          s2n_set_add mem_ok (some set) (some element)
            = some (S2N_RESULT_ERROR S2N_ERR_ALLOC, some set)))) := by
  rcases s2n_set_binary_search_spec set element 0 hc hs hn with
    ⟨hex, hr⟩ | ⟨i, hi, hr, hlo, hhi⟩
  · left
    refine ⟨hex, ?_⟩
    simp only [s2n_set_add, hr]
  · right
    constructor
    · intro a ha hz
      obtain ⟨k, hk⟩ := List.mem_iff_getElem?.mp ha
      by_cases hki : k < i
      · have := hlo k a hki hk; omega
      · have := hhi k a (by omega) hk; omega
    · have hi' : ¬ set.data.num_of_elements < i := by omega
      by_cases hmem : mem_ok = false ∨ 4294967296 ≤ set.data.num_of_elements + 1
      · right
        refine ⟨hmem, ?_⟩
        simp only [s2n_set_add, hr, s2n_array_insert_and_copy, if_neg hi', if_pos hmem]
      · left
        have hm1 : mem_ok = true := by
          cases mem_ok
          · exact absurd (Or.inl rfl) hmem
          · rfl
        refine ⟨hm1, by omega, i, hi, ?_, ?_⟩
        · simp only [s2n_set_add, hr, s2n_array_insert_and_copy, if_neg hi', if_neg hmem]
        · exact strictly_ascending_insertIdx hc _ element i hi hs hlo hhi

/-- Every set reached from a strictly ascending one by `s2n_set_add` calls is
strictly ascending, keeps its comparator and keeps its count within `uint32_t`. -/
theorem s2n_set_add_all_spec (hc : comparator_consistent cmp)
    (calls : List (Bool × Option α)) :
    ∀ set : s2n_set α, set.comparator = cmp → strictly_ascending cmp set.data.elems →
      set.data.num_of_elements < 4294967296 →
      ∃ set', s2n_set_add_all set calls = some set' ∧ set'.comparator = cmp ∧
        strictly_ascending cmp set'.data.elems ∧
        set'.data.num_of_elements < 4294967296 := by
  induction calls with
  | nil => intro set h1 h2 h3; exact ⟨set, rfl, h1, h2, h3⟩
  | cons call calls ih =>
    intro set h1 h2 h3
    obtain ⟨mem_ok, element⟩ := call
    subst h1
    cases element with
    | none =>
      have : s2n_set_add mem_ok (some set) (none : Option α)
          = some (S2N_RESULT_ERROR S2N_ERR_NULL, some set) := by
        simp [s2n_set_add, s2n_set_binary_search]
      simp only [s2n_set_add_all, this]
      exact ih set rfl h2 h3
    | some e =>
      rcases s2n_set_add_spec mem_ok set e hc h2 h3 with
        ⟨_, hr⟩ | ⟨_, ⟨_, hlt, i, hi, hr, hsorted⟩ | ⟨_, hr⟩⟩
      · simp only [s2n_set_add_all, hr]; exact ih set rfl h2 h3
      · simp only [s2n_set_add_all, hr]
        refine ih _ rfl hsorted ?_
        show (set.data.elems.insertIdx i e).length < 4294967296
        rw [List.length_insertIdx _ _ hi]
        exact hlt
      · simp only [s2n_set_add_all, hr]; exact ih set rfl h2 h3

end set_lemmas


/-! ## Properties of the bounded public random -/

section random_lemmas

theorem s2n_public_random_loop_ok (max : Nat) :
    ∀ (draws : List (s2n_result Nat)) (v : Int) (rest : List (s2n_result Nat)),
      s2n_public_random_loop max draws = some (S2N_RESULT_OK v, rest) →
      ∃ (rejected : List Nat) (r : Nat), draws = rejected.map S2N_RESULT_OK ++ S2N_RESULT_OK r :: rest ∧
        (∀ w ∈ rejected, in_skew_region max w = true) ∧
        in_skew_region max r = false ∧ v = ((r % max : Nat) : Int) := by
  intro draws
  induction draws with
  | nil => intro v rest h; simp [s2n_public_random_loop] at h
  | cons d draws ih =>
    intro v rest h
    cases d with
    | S2N_RESULT_ERROR e => simp [s2n_public_random_loop] at h
    | S2N_RESULT_OK r =>
      by_cases hr : in_skew_region max r = true
      · rw [s2n_public_random_loop, if_pos hr] at h
        obtain ⟨rejected, r', h1, h2, h3, h4⟩ := ih v rest h
        refine ⟨r :: rejected, r', by simp [h1], ?_, h3, h4⟩
        intro w hw
        rcases List.mem_cons.mp hw with rfl | hw'
        · exact hr
        · exact h2 w hw'
      · rw [s2n_public_random_loop, if_neg hr] at h
        simp only [Option.some.injEq, Prod.mk.injEq, S2N_RESULT_OK.injEq] at h
        refine ⟨[], r, by simp [h.2], by simp, by simpa using hr, h.1.symm⟩

theorem s2n_public_random_loop_of_accept (max : Nat) (r : Nat)
    (rest : List (s2n_result Nat)) (hr : in_skew_region max r = false) :
    ∀ rejected : List Nat, (∀ w ∈ rejected, in_skew_region max w = true) →
      s2n_public_random_loop max (rejected.map S2N_RESULT_OK ++ S2N_RESULT_OK r :: rest)
        = some (S2N_RESULT_OK ((r % max : Nat) : Int), rest) := by
  intro rejected
  induction rejected with
  | nil => intro _; simp [s2n_public_random_loop, hr]
  | cons w rejected ih =>
    intro h
    have hw : in_skew_region max w = true := h w (List.mem_cons_self _ _)
    simp only [List.map_cons, List.cons_append, s2n_public_random_loop, hw, if_true]
    exact ih (fun x hx => h x (List.mem_cons_of_mem _ hx))

/-- Below the skew region every residue modulo `max` occurs equally often among
the raw 64 bit words. -/
theorem accepted_words_evenly_spread (max : Nat) (hmax : 0 < max) (u : Nat) (hu : u < max) :
    Nat.count (fun r => in_skew_region max r = false ∧ r % max = u) (UINT64_MAX + 1)
      = (UINT64_MAX - UINT64_MAX % max) / max := by
  have hle : UINT64_MAX - UINT64_MAX % max ≤ UINT64_MAX + 1 := by omega
  obtain ⟨k, hk⟩ := Nat.exists_eq_add_of_le hle
  rw [hk, Nat.count_add]
  have hzero : Nat.count (fun j => in_skew_region max
      (UINT64_MAX - UINT64_MAX % max + j) = false ∧
      (UINT64_MAX - UINT64_MAX % max + j) % max = u) k = 0 := by
    rw [Nat.count_iff_forall_not]
    intro j _ hj
    have : in_skew_region max (UINT64_MAX - UINT64_MAX % max + j) = true := by
      simp [in_skew_region]
    rw [this] at hj
    exact absurd hj.1 (by simp)
  rw [hzero, Nat.add_zero]
  have hcongr : Nat.count (fun r => in_skew_region max r = false ∧ r % max = u)
      (UINT64_MAX - UINT64_MAX % max)
      = Nat.count (fun r => r ≡ u [MOD max]) (UINT64_MAX - UINT64_MAX % max) := by
    rw [Nat.count_eq_card_filter_range, Nat.count_eq_card_filter_range]
    congr 1
    apply Finset.filter_congr
    intro r hr
    have hr' : r < UINT64_MAX - UINT64_MAX % max := Finset.mem_range.mp hr
    have hacc : in_skew_region max r = false := by
      simp only [in_skew_region, decide_eq_false_iff_not]; omega
    simp only [hacc, true_and, Nat.ModEq, Nat.mod_eq_of_lt hu]
  rw [hcongr, Nat.count_modEq_card _ hmax]
  have hdvd : (UINT64_MAX - UINT64_MAX % max) % max = 0 :=
    Nat.sub_mod_eq_zero_of_mod_eq (by simp)
  rw [hdvd]
  simp

end random_lemmas

/-! ## Properties of the socket cork functions -/

section socket_lemmas

theorem setsockopt_same (kernel : kernel_sockets) (fd : Int) (optname : socket_option)
    (optval : Int) (on_ : Bool) (h : kernel fd optname = some on_) :
    (setsockopt kernel fd optname optval).2 fd optname = some (decide (optval ≠ 0)) := by
  simp [setsockopt, h]

/-- Cork and uncork calls leave the connection as it is and keep the option
present on the send descriptor. -/
theorem run_cork_calls_keeps (m : cork_macros) (ctx : s2n_socket_write_io_context)
    (calls : List cork_call) :
    ∀ w : socket_world, w.conn.send_io_context = some ctx →
      (∃ on_, w.kernel ctx.fd m.S2N_CORK = some on_) →
      (run_cork_calls (some m) w calls).conn = w.conn ∧
      ∃ on_, (run_cork_calls (some m) w calls).kernel ctx.fd m.S2N_CORK = some on_ := by
  induction calls with
  | nil => intro w _ h2; exact ⟨rfl, h2⟩
  | cons call calls ih =>
    intro w h1 h2
    obtain ⟨on_, hon⟩ := h2
    cases call with
    | cork =>
      have hstep : s2n_socket_write_cork (some m) w = (S2N_RESULT_OK (),
          { w with kernel := (setsockopt w.kernel ctx.fd m.S2N_CORK m.S2N_CORK_ON).2 }) := by
        simp [s2n_socket_write_cork, h1]
      simp only [run_cork_calls, hstep]
      exact ih _ h1 ⟨_, setsockopt_same _ _ _ _ _ hon⟩
    | uncork =>
      have hstep : s2n_socket_write_uncork (some m) w = (S2N_RESULT_OK (),
          { w with kernel := (setsockopt w.kernel ctx.fd m.S2N_CORK m.S2N_CORK_OFF).2 }) := by
        simp [s2n_socket_write_uncork, h1]
      simp only [run_cork_calls, hstep]
      exact ih _ h1 ⟨_, setsockopt_same _ _ _ _ _ hon⟩

theorem s2n_socket_write_restore_set (m : cork_macros) (w : socket_world)
    (c : s2n_socket_write_io_context) (h : w.conn.send_io_context = some c)
    (hset : c.original_cork_is_set = true) :
    s2n_socket_write_restore (some m) w = (S2N_RESULT_OK (),
      with_send_io_context
        { w with kernel := (setsockopt w.kernel c.fd m.S2N_CORK c.original_cork_val).2 }
        { c with original_cork_is_set := false }) := by
  simp [s2n_socket_write_restore, h, hset, with_send_io_context]

end socket_lemmas

/-! ## The claims about the sorted set -/

/-- C1. `s2n_set_add` keeps the set a sorted array without duplicates: when it
returns success on a set whose backing array is strictly ascending under a
comparator consistent with a strict total order, the backing array is again
strictly ascending, has exactly one more element, and holds the old elements in
their old relative order plus the new element; hence every set built from an
empty set by any sequence of `s2n_set_add` calls is strictly ascending. -/
theorem s2n_set_add_keeps_sorted {α : Type} (mem_ok : Bool) (set : s2n_set α)
    (element : Option α) (set' : Option (s2n_set α)) (calls : List (Bool × Option α))
    (hc : comparator_consistent set.comparator) :
    (strictly_ascending set.comparator set.data.elems →
      set.data.num_of_elements < 4294967296 →
      s2n_set_add mem_ok (some set) element = some (S2N_RESULT_OK (), set') →
      ∃ s' e, set' = some s' ∧ element = some e ∧
        s'.comparator = set.comparator ∧
        strictly_ascending s'.comparator s'.data.elems ∧
        s'.data.num_of_elements = set.data.num_of_elements + 1 ∧
        set.data.elems.Sublist s'.data.elems ∧
        s'.data.elems.Perm (e :: set.data.elems)) ∧
    (∃ built, s2n_set_add_all (s2n_set_new set.comparator) calls = some built ∧
      strictly_ascending built.comparator built.data.elems) := by
  constructor
  · intro hs hn hok
    cases element with
    | none => simp [s2n_set_add, s2n_set_binary_search] at hok
    | some e =>
      rcases s2n_set_add_spec mem_ok set e hc hs hn with
        ⟨_, hr⟩ | ⟨_, ⟨_, _, i, hi, hr, hsorted⟩ | ⟨_, hr⟩⟩
      · rw [hr] at hok; simp at hok
      · rw [hr] at hok
        simp only [Option.some.injEq, Prod.mk.injEq, true_and] at hok
        refine ⟨_, e, hok.symm, rfl, rfl, hsorted, ?_, ?_, ?_⟩
        · exact List.length_insertIdx _ _ hi
        · show set.data.elems.Sublist (set.data.elems.insertIdx i e)
          rw [insertIdx_eq_take_append_drop _ _ _ hi]
          have h := List.Sublist.append (List.Sublist.refl (set.data.elems.take i))
            (List.sublist_cons_self e (set.data.elems.drop i))
          rwa [List.take_append_drop] at h
        · exact List.perm_insertIdx e _ hi
      · rw [hr] at hok; simp at hok
  · obtain ⟨built, h1, h2, h3, _⟩ := s2n_set_add_all_spec hc calls
      (s2n_set_new set.comparator) rfl List.Pairwise.nil
      (by simp [s2n_set_new, s2n_array.num_of_elements])
    exact ⟨built, h1, by rw [h2]; exact h3⟩

/-- Witness for C1: adding 4 to the set 1, 3, 5, 7 of integers, and building a set
from three calls on the empty set. -/
theorem s2n_set_add_keeps_sorted_witness :
    comparator_consistent int_comparator ∧
    strictly_ascending int_comparator [1, 3, 5, 7] ∧
    (4 : Nat) < 4294967296 ∧
    s2n_set_add true (some ⟨⟨[1, 3, 5, 7]⟩, int_comparator⟩) (some 4)
      = some (S2N_RESULT_OK (), some ⟨⟨[1, 3, 4, 5, 7]⟩, int_comparator⟩) ∧
    (∃ (s' : s2n_set Int) (e : Int),
      (some ⟨⟨[1, 3, 4, 5, 7]⟩, int_comparator⟩ : Option (s2n_set Int)) = some s' ∧
      (some 4 : Option Int) = some e ∧
      s'.comparator = int_comparator ∧
      strictly_ascending s'.comparator s'.data.elems ∧
      s'.data.num_of_elements = 4 + 1 ∧
      [1, 3, 5, 7].Sublist s'.data.elems ∧
      s'.data.elems.Perm (e :: [1, 3, 5, 7])) ∧
    (∃ built, s2n_set_add_all (s2n_set_new int_comparator)
        [(true, some 3), (true, some 1), (true, some 3)] = some built ∧
      strictly_ascending built.comparator built.data.elems) :=
  ⟨int_comparator_consistent, by decide, by decide, rfl,
    (s2n_set_add_keeps_sorted true ⟨⟨[1, 3, 5, 7]⟩, int_comparator⟩ (some 4)
      (some ⟨⟨[1, 3, 4, 5, 7]⟩, int_comparator⟩)
      [(true, some 3), (true, some 1), (true, some 3)]
      int_comparator_consistent).1 (by decide) (by decide) rfl,
    (s2n_set_add_keeps_sorted true ⟨⟨[1, 3, 5, 7]⟩, int_comparator⟩ (some 4)
      (some ⟨⟨[1, 3, 4, 5, 7]⟩, int_comparator⟩)
      [(true, some 3), (true, some 1), (true, some 3)]
      int_comparator_consistent).2⟩

/-- C2. `s2n_set_binary_search` sets `out` to the index at which the element should
be inserted: on a strictly ascending array of `n` elements none of which compares
equal to the element, it returns success with `*out = i`, `i <= n`, every element
below index `i` compares less than the element and every element at index `i` or
above compares greater (`i = 0` for an empty array). -/
theorem s2n_set_binary_search_insertion_index {α : Type} (set : s2n_set α)
    (element : α) (out : Nat)
    (hc : comparator_consistent set.comparator)
    (hs : strictly_ascending set.comparator set.data.elems)
    (hn : set.data.num_of_elements < 4294967296)
    (hne : ∀ a ∈ set.data.elems, set.comparator a element ≠ 0) :
    ∃ i : Nat,
      s2n_set_binary_search (some set) (some element) (some out)
        = some (S2N_RESULT_OK i) ∧
      i ≤ set.data.num_of_elements ∧
      (∀ k a, k < i → set.data.elems[k]? = some a → set.comparator a element < 0) ∧
      (∀ k a, i ≤ k → set.data.elems[k]? = some a → 0 < set.comparator a element) ∧
      (set.data.num_of_elements = 0 → i = 0) := by
  rcases s2n_set_binary_search_spec set element out hc hs hn with
    ⟨⟨a, ha, hz⟩, _⟩ | ⟨i, hi, hr, hlo, hhi⟩
  · exact absurd hz (hne a ha)
  · exact ⟨i, hr, hi, hlo, hhi, by omega⟩

/-- Witness for C2: searching 4 in the set 1, 3, 5, 7 of integers. -/
theorem s2n_set_binary_search_insertion_index_witness :
    comparator_consistent int_comparator ∧
    strictly_ascending int_comparator [1, 3, 5, 7] ∧
    (4 : Nat) < 4294967296 ∧
    (∀ a ∈ [1, 3, 5, 7], int_comparator a 4 ≠ 0) ∧
    ∃ i : Nat,
      s2n_set_binary_search (some ⟨⟨[1, 3, 5, 7]⟩, int_comparator⟩) (some 4) (some 0)
        = some (S2N_RESULT_OK i) ∧
      i ≤ 4 ∧
      (∀ k a, k < i → [1, 3, 5, 7][k]? = some a → int_comparator a 4 < 0) ∧
      (∀ k a, i ≤ k → [1, 3, 5, 7][k]? = some a → 0 < int_comparator a 4) ∧
      (4 = 0 → i = 0) :=
  ⟨int_comparator_consistent, by decide, by decide, by decide,
    s2n_set_binary_search_insertion_index ⟨⟨[1, 3, 5, 7]⟩, int_comparator⟩ 4 0
      int_comparator_consistent (by decide) (by decide) (by decide)⟩

/-- C3. Adding returns an error if the element already exists, and only then: on a
non-null set with a strictly ascending backing array and a non-null element,
`s2n_set_binary_search`, and with it `s2n_set_add`, fails with
`S2N_ELEMENT_ALREADY_IN_ARRAY` if and only if some array element compares equal to
the element; when the array insertion itself succeeds this is the only failure of
`s2n_set_add`. -/
theorem s2n_set_add_already_in_array_iff {α : Type} (mem_ok : Bool) (set : s2n_set α)
    (element : α) (out : Nat)
    (hc : comparator_consistent set.comparator)
    (hs : strictly_ascending set.comparator set.data.elems)
    (hn : set.data.num_of_elements < 4294967296) :
    (s2n_set_binary_search (some set) (some element) (some out)
        = some (S2N_RESULT_ERROR S2N_ELEMENT_ALREADY_IN_ARRAY)
      ↔ ∃ a ∈ set.data.elems, set.comparator a element = 0) ∧
    ((s2n_set_add mem_ok (some set) (some element)).map Prod.fst
        = some (S2N_RESULT_ERROR S2N_ELEMENT_ALREADY_IN_ARRAY)
      ↔ ∃ a ∈ set.data.elems, set.comparator a element = 0) ∧
    (mem_ok = true → set.data.num_of_elements + 1 < 4294967296 →
      ((s2n_set_add mem_ok (some set) (some element)).map Prod.fst
          ≠ some (S2N_RESULT_OK ())
        ↔ ∃ a ∈ set.data.elems, set.comparator a element = 0)) := by
  refine ⟨?_, ?_, ?_⟩
  · rcases s2n_set_binary_search_spec set element out hc hs hn with
      ⟨hex, hr⟩ | ⟨i, hi, hr, hlo, hhi⟩
    · exact ⟨fun _ => hex, fun _ => hr⟩
    · constructor
      · intro h; rw [hr] at h; simp at h
      · rintro ⟨a, ha, hz⟩
        obtain ⟨k, hk⟩ := List.mem_iff_getElem?.mp ha
        by_cases hki : k < i
        · have := hlo k a hki hk; omega
        · have := hhi k a (by omega) hk; omega
  · rcases s2n_set_add_spec mem_ok set element hc hs hn with
      ⟨hex, hr⟩ | ⟨hne, ⟨_, _, i, _, hr, _⟩ | ⟨_, hr⟩⟩
    · exact ⟨fun _ => hex, fun _ => by rw [hr]; rfl⟩
    · constructor
      · intro h; rw [hr] at h; simp at h
      · rintro ⟨a, ha, hz⟩; exact absurd hz (hne a ha)
    · constructor
      · intro h; rw [hr] at h; simp at h
      · rintro ⟨a, ha, hz⟩; exact absurd hz (hne a ha)
  · intro hm hlt
    rcases s2n_set_add_spec mem_ok set element hc hs hn with
      ⟨hex, hr⟩ | ⟨hne, ⟨_, _, i, _, hr, _⟩ | ⟨hbad, _⟩⟩
    · exact ⟨fun _ => hex, fun _ => by rw [hr]; simp⟩
    · constructor
      · intro h; rw [hr] at h; simp at h
      · rintro ⟨a, ha, hz⟩; exact absurd hz (hne a ha)
    · rcases hbad with hbad | hbad
      · rw [hm] at hbad; cases hbad
      · omega


/-- Witness for C3: adding 5, already present, to the set 1, 3, 5, 7 of integers. -/
theorem s2n_set_add_already_in_array_iff_witness :
    comparator_consistent int_comparator ∧
    strictly_ascending int_comparator [1, 3, 5, 7] ∧
    (4 : Nat) < 4294967296 ∧
    (s2n_set_binary_search (some ⟨⟨[1, 3, 5, 7]⟩, int_comparator⟩) (some 5) (some 0)
        = some (S2N_RESULT_ERROR S2N_ELEMENT_ALREADY_IN_ARRAY)
      ↔ ∃ a ∈ [1, 3, 5, 7], int_comparator a 5 = 0) ∧
    ((s2n_set_add true (some ⟨⟨[1, 3, 5, 7]⟩, int_comparator⟩) (some 5)).map Prod.fst
        = some (S2N_RESULT_ERROR S2N_ELEMENT_ALREADY_IN_ARRAY)
      ↔ ∃ a ∈ [1, 3, 5, 7], int_comparator a 5 = 0) ∧
    ((s2n_set_add true (some ⟨⟨[1, 3, 5, 7]⟩, int_comparator⟩) (some 5)).map Prod.fst
        ≠ some (S2N_RESULT_OK ())
      ↔ ∃ a ∈ [1, 3, 5, 7], int_comparator a 5 = 0) :=
  ⟨int_comparator_consistent, by decide, by decide,
    (s2n_set_add_already_in_array_iff true ⟨⟨[1, 3, 5, 7]⟩, int_comparator⟩ 5 0
      int_comparator_consistent (by decide) (by decide)).1,
    (s2n_set_add_already_in_array_iff true ⟨⟨[1, 3, 5, 7]⟩, int_comparator⟩ 5 0
      int_comparator_consistent (by decide) (by decide)).2.1,
    (s2n_set_add_already_in_array_iff true ⟨⟨[1, 3, 5, 7]⟩, int_comparator⟩ 5 0
      int_comparator_consistent (by decide) (by decide)).2.2 rfl (by decide)⟩

/-! ## The claims about the bounded public random -/

/-- C4. For every `max > 0`, a successful `s2n_public_random(max, output)` stores in
`*output` an integer `v` with `0 <= v < max`, obtained by rejection sampling: the
raw words in the region that would skew a naive modulo reduction are discarded
and redrawn, and the first word outside it is reduced modulo `max`; such a run
does return success, and outside the region every value below `max` is the
residue of equally many words. -/
theorem s2n_public_random_in_range (draws : List (s2n_result Nat)) (max : Int)
    (output : Option Int) (v : Int) (rest : List (s2n_result Nat)) (hmax : 0 < max) :
    (s2n_public_random draws max output = some (S2N_RESULT_OK v, rest) ↔
      output ≠ none ∧ ∃ (rejected : List Nat) (r : Nat),
        draws = rejected.map S2N_RESULT_OK ++ S2N_RESULT_OK r :: rest ∧
        (∀ w ∈ rejected, in_skew_region max.toNat w = true) ∧
        in_skew_region max.toNat r = false ∧ v = (r : Int) % max) ∧
    (s2n_public_random draws max output = some (S2N_RESULT_OK v, rest) →
      0 ≤ v ∧ v < max) ∧
    (∀ u : Nat, (u : Int) < max →
      Nat.count (fun r => in_skew_region max.toNat r = false ∧ r % max.toNat = u)
          (UINT64_MAX + 1)
        = (UINT64_MAX - UINT64_MAX % max.toNat) / max.toNat) := by
  have hcast : (max.toNat : Int) = max := Int.toNat_of_nonneg (le_of_lt hmax)
  have hmod : ∀ r : Nat, ((r % max.toNat : Nat) : Int) = (r : Int) % max := by
    intro r; rw [Int.natCast_mod, hcast]
  have hgt : gt_check_result max 0 = S2N_RESULT_OK () := by
    simp [gt_check_result, hmax]
  have hiff : s2n_public_random draws max output = some (S2N_RESULT_OK v, rest) ↔
      output ≠ none ∧ ∃ (rejected : List Nat) (r : Nat),
        draws = rejected.map S2N_RESULT_OK ++ S2N_RESULT_OK r :: rest ∧
        (∀ w ∈ rejected, in_skew_region max.toNat w = true) ∧
        in_skew_region max.toNat r = false ∧ v = (r : Int) % max := by
    cases output with
    | none => simp [s2n_public_random, hgt]
    | some o =>
      simp only [s2n_public_random, hgt, ne_eq, not_false_eq_true, true_and,
        reduceCtorEq]
      constructor
      · intro h
        obtain ⟨rejected, r, h1, h2, h3, h4⟩ := s2n_public_random_loop_ok _ _ _ _ h
        exact ⟨rejected, r, h1, h2, h3, by rw [h4, hmod]⟩
      · rintro ⟨rejected, r, h1, h2, h3, h4⟩
        rw [h1, s2n_public_random_loop_of_accept _ _ _ h3 _ h2, h4, hmod]
  refine ⟨hiff, ?_, ?_⟩
  · intro h
    obtain ⟨_, _, r, _, _, _, hv⟩ := hiff.mp h
    rw [hv]
    exact ⟨Int.emod_nonneg _ (by omega), Int.emod_lt_of_pos _ hmax⟩
  · intro u hu
    exact accepted_words_evenly_spread max.toNat (by omega) u (by omega)

/-- Witness for C4: with `max = 3` the word `UINT64_MAX` is redrawn and the word 7
gives the value 1. -/
theorem s2n_public_random_in_range_witness :
    (0 : Int) < 3 ∧
    s2n_public_random [S2N_RESULT_OK UINT64_MAX, S2N_RESULT_OK 7, S2N_RESULT_OK 5] 3
      (some 0) = some (S2N_RESULT_OK 1, [S2N_RESULT_OK 5]) ∧
    ((0 : Int) ≤ 1 ∧ (1 : Int) < 3) :=
  ⟨by decide, by decide,
    (s2n_public_random_in_range
      [S2N_RESULT_OK UINT64_MAX, S2N_RESULT_OK 7, S2N_RESULT_OK 5] 3 (some 0) 1
      [S2N_RESULT_OK 5] (by decide)).2.1 (by decide)⟩

/-- C5. For every `max <= 0`, `s2n_public_random(max, output)` fails with
`S2N_ERR_SAFETY`, the error that `gt_check_result(max, 0)` raises exactly when
`max <= 0`; no random word is drawn. -/
theorem s2n_public_random_rejects_nonpositive (draws : List (s2n_result Nat))
    (max : Int) (output : Option Int) (hmax : max ≤ 0) :
    s2n_public_random draws max output = some (S2N_RESULT_ERROR S2N_ERR_SAFETY, draws) ∧
    gt_check_result max 0 = S2N_RESULT_ERROR S2N_ERR_SAFETY ∧
    (∀ n : Int, gt_check_result n 0 = S2N_RESULT_ERROR S2N_ERR_SAFETY ↔ n ≤ 0) := by
  have hall : ∀ n : Int, gt_check_result n 0 = S2N_RESULT_ERROR S2N_ERR_SAFETY ↔ n ≤ 0 := by
    intro n
    unfold gt_check_result
    by_cases h : n ≤ 0
    · simp [h]
    · simp [h]
  have hgt := (hall max).mpr hmax
  exact ⟨by simp [s2n_public_random, hgt], hgt, hall⟩

/-- Witness for C5: `max = -1`. -/
theorem s2n_public_random_rejects_nonpositive_witness :
    (-1 : Int) ≤ 0 ∧
    s2n_public_random [S2N_RESULT_OK 7] (-1) (some 0)
      = some (S2N_RESULT_ERROR S2N_ERR_SAFETY, [S2N_RESULT_OK 7]) ∧
    gt_check_result (-1) 0 = S2N_RESULT_ERROR S2N_ERR_SAFETY ∧
    (∀ n : Int, gt_check_result n 0 = S2N_RESULT_ERROR S2N_ERR_SAFETY ↔ n ≤ 0) :=
  ⟨by decide, s2n_public_random_rejects_nonpositive [S2N_RESULT_OK 7] (-1) (some 0)
    (by decide)⟩

/-! ## The claims about the socket cork functions -/

/-- C6, as amended. Snapshot then restore puts the socket option back when the send
descriptor is a TCP socket carrying the `S2N_CORK` option: for every connection
with a non-null send I/O context on such a descriptor, `s2n_socket_write_snapshot`
returns success, and after any sequence of `s2n_socket_write_cork` and
`s2n_socket_write_uncork` calls a following `s2n_socket_write_restore` returns
success, sets the option to the value it had when the snapshot was taken
(`original_cork_val` holds that value), and clears `original_cork_is_set`. -/
theorem s2n_socket_write_restore_puts_back (m : cork_macros) (w : socket_world)
    (ctx : s2n_socket_write_io_context) (on_ : Bool) (calls : List cork_call)
    (hctx : w.conn.send_io_context = some ctx)
    (hsock : w.kernel ctx.fd m.S2N_CORK = some on_) :
    (s2n_socket_write_snapshot (some m) w).1 = S2N_RESULT_OK () ∧
    (snapshot_calls_restore (some m) w calls).1 = S2N_RESULT_OK () ∧
    cork_put_back m ctx.fd w (snapshot_calls_restore (some m) w calls).2 ∧
    (snapshot_calls_restore (some m) w calls).2.kernel ctx.fd m.S2N_CORK = some on_ := by
  have hsnap : s2n_socket_write_snapshot (some m) w = (S2N_RESULT_OK (),
      with_send_io_context w ⟨ctx.fd, true, (if on_ then 1 else 0)⟩) := by
    simp [s2n_socket_write_snapshot, hctx, getsockopt, hsock, eq_check_result,
      with_send_io_context]
  have hctx1 : (s2n_socket_write_snapshot (some m) w).2.conn.send_io_context
      = some ⟨ctx.fd, true, (if on_ then 1 else 0)⟩ := by
    rw [hsnap]; rfl
  have hkern1 : (s2n_socket_write_snapshot (some m) w).2.kernel ctx.fd m.S2N_CORK
      = some on_ := by
    rw [hsnap]; exact hsock
  obtain ⟨hconn, on2, hon2⟩ := run_cork_calls_keeps m
    ⟨ctx.fd, true, (if on_ then 1 else 0)⟩ calls
    (s2n_socket_write_snapshot (some m) w).2 hctx1 ⟨on_, hkern1⟩
  have hon2' : (run_cork_calls (some m) (s2n_socket_write_snapshot (some m) w).2
      calls).kernel ctx.fd m.S2N_CORK = some on2 := hon2
  have hval : decide ((if on_ then (1 : Int) else 0) ≠ 0) = on_ := by
    cases on_ <;> simp
  have hrestore := s2n_socket_write_restore_set m
    (run_cork_calls (some m) (s2n_socket_write_snapshot (some m) w).2 calls)
    ⟨ctx.fd, true, (if on_ then 1 else 0)⟩ (by rw [hconn, hctx1]) rfl
  have hkernel : (snapshot_calls_restore (some m) w calls).2.kernel ctx.fd m.S2N_CORK
      = some on_ := by
    unfold snapshot_calls_restore
    rw [hrestore]
    show (setsockopt _ ctx.fd m.S2N_CORK (if on_ then 1 else 0)).2 ctx.fd m.S2N_CORK = _
    rw [setsockopt_same _ _ _ _ _ hon2', hval]
  have hres : (snapshot_calls_restore (some m) w calls).1 = S2N_RESULT_OK () := by
    unfold snapshot_calls_restore
    rw [hrestore]
  have hfinal : (snapshot_calls_restore (some m) w calls).2.conn.send_io_context
      = some ⟨ctx.fd, false, (if on_ then 1 else 0)⟩ := by
    unfold snapshot_calls_restore
    rw [hrestore]
    rfl
  exact ⟨by rw [hsnap], hres, ⟨on_, _, hsock, hkernel, hfinal, rfl, rfl⟩, hkernel⟩

/-- Witness for C6 as amended: a TCP socket on descriptor 3 with the option off,
corked, uncorked and corked again between snapshot and restore. -/
theorem s2n_socket_write_restore_puts_back_witness :
    tcp_world.conn.send_io_context = some ⟨3, false, 0⟩ ∧
    tcp_world.kernel 3 socket_option.TCP_CORK = some false ∧
    (s2n_socket_write_snapshot (some ⟨socket_option.TCP_CORK, 1, 0⟩) tcp_world).1
      = S2N_RESULT_OK () ∧
    (snapshot_calls_restore (some ⟨socket_option.TCP_CORK, 1, 0⟩) tcp_world
      [cork_call.cork, cork_call.uncork, cork_call.cork]).1 = S2N_RESULT_OK () ∧
    cork_put_back ⟨socket_option.TCP_CORK, 1, 0⟩ 3 tcp_world
      (snapshot_calls_restore (some ⟨socket_option.TCP_CORK, 1, 0⟩) tcp_world
        [cork_call.cork, cork_call.uncork, cork_call.cork]).2 ∧
    (snapshot_calls_restore (some ⟨socket_option.TCP_CORK, 1, 0⟩) tcp_world
      [cork_call.cork, cork_call.uncork, cork_call.cork]).2.kernel 3
        socket_option.TCP_CORK = some false :=
  ⟨rfl, rfl, s2n_socket_write_restore_puts_back ⟨socket_option.TCP_CORK, 1, 0⟩ tcp_world
    ⟨3, false, 0⟩ false [cork_call.cork, cork_call.uncork, cork_call.cork] rfl rfl⟩

/-- C6, as stated, fails when the send descriptor is not a TCP socket: on a pipe
`s2n_socket_write_snapshot` returns success although `getsockopt` read nothing,
restore returns success, and there is no option value that was put back or that
`original_cork_val` holds. -/
theorem s2n_socket_write_restore_pipe_counterexample :
    pipe_world.conn.send_io_context ≠ none ∧
    (s2n_socket_write_snapshot (select_cork_macros true false true) pipe_world).1
      = S2N_RESULT_OK () ∧
    (snapshot_calls_restore (select_cork_macros true false true) pipe_world
      [cork_call.cork, cork_call.uncork]).1 = S2N_RESULT_OK () ∧
    select_cork_macros true false true = some ⟨socket_option.TCP_CORK, 1, 0⟩ ∧
    ¬ cork_put_back ⟨socket_option.TCP_CORK, 1, 0⟩ 3 pipe_world
      (snapshot_calls_restore (select_cork_macros true false true) pipe_world
        [cork_call.cork, cork_call.uncork]).2 := by
  refine ⟨by decide, by decide, by decide, by decide, ?_⟩
  rintro ⟨on_, ctx, h, _⟩
  cases h

/-- C7. `s2n_socket_was_corked` returns false when the connection is not using the
managed socket I/O or has no send callback set, without reading
`send_io_context`; for every other connection it fails on a null
`send_io_context` and otherwise returns success with `*was_corked` true exactly
when `original_cork_val` is non-zero. -/
theorem s2n_socket_was_corked_spec (conn : s2n_connection) :
    ((conn.managed_io = false ∨ conn.send = none) →
      s2n_socket_was_corked conn = S2N_RESULT_OK false ∧
      ∀ io_ctx, s2n_socket_was_corked { conn with send_io_context := io_ctx }
        = S2N_RESULT_OK false) ∧
    (¬ (conn.managed_io = false ∨ conn.send = none) →
      (conn.send_io_context = none →
        s2n_socket_was_corked conn = S2N_RESULT_ERROR S2N_ERR_NULL) ∧
      (∀ io_ctx, conn.send_io_context = some io_ctx →
        ∃ was_corked, s2n_socket_was_corked conn = S2N_RESULT_OK was_corked ∧
          (was_corked = true ↔ io_ctx.original_cork_val ≠ 0))) := by
  constructor
  · intro h
    exact ⟨by simp [s2n_socket_was_corked, h], fun io_ctx => by
      simp [s2n_socket_was_corked, h]⟩
  · intro h
    constructor
    · intro hnull
      simp [s2n_socket_was_corked, h, hnull]
    · intro io_ctx hctx
      refine ⟨decide (io_ctx.original_cork_val ≠ 0), ?_, by simp⟩
      simp [s2n_socket_was_corked, h, hctx]

/-- Witness for C7: a connection without managed I/O and a null context, and a
managed connection whose snapshotted cork value is 1. -/
theorem s2n_socket_was_corked_spec_witness :
    (s2n_socket_was_corked ⟨false, none, none⟩ = S2N_RESULT_OK false ∧
      ∀ io_ctx, s2n_socket_was_corked
        { (⟨false, none, none⟩ : s2n_connection) with send_io_context := io_ctx }
        = S2N_RESULT_OK false) ∧
    (∃ was_corked, s2n_socket_was_corked ⟨true, some (), some ⟨3, true, 1⟩⟩
        = S2N_RESULT_OK was_corked ∧ (was_corked = true ↔ (1 : Int) ≠ 0)) ∧
    s2n_socket_was_corked ⟨true, some (), none⟩ = S2N_RESULT_ERROR S2N_ERR_NULL :=
  ⟨(s2n_socket_was_corked_spec ⟨false, none, none⟩).1 (Or.inl rfl),
    ((s2n_socket_was_corked_spec ⟨true, some (), some ⟨3, true, 1⟩⟩).2 (by decide)).2
      ⟨3, true, 1⟩ rfl,
    ((s2n_socket_was_corked_spec ⟨true, some (), none⟩).2 (by decide)).1 rfl⟩

end S2N

